import Mathlib

/-!
Verification of the tile-map conversion core of `map-scripts`
(`src/bin/cli.js`, which bundles `from-maps.js` and `colors.js`).

The development shallowly embeds the decode direction of the converter:

* the color tables of `colors.js` (`byByte`, `nonWalkablePath`,
  `unexploredPath`, …);
* the two pixel palettes (`mapPixelPalette`, `pathPixelPalette`) built at
  module load time in `from-maps.js`;
* the nested rendering loops `renderMap` / `renderPath` (modelled by one
  parametrised loop `renderLayer`, since the two differ only in the palette
  that is consulted);
* the marker codec `parseMarkerData` with Node.js `Buffer` read semantics
  (`readUIntLE` / `readUInt8` bounds-check and throw; `slice` clamps);
* the per-tile driver `drawMapSection` and the per-floor accumulation of
  markers.

Machine integers are `Nat`; a byte of a `Buffer` is a `Nat < 256`; fallible
JavaScript operations (out-of-range `Buffer` reads, missing palette entries
flowing into `putImageData`, failed assertions) are `Except String`.
-/

/-- An rgb color triple, as in `colors.js`. -/
structure Color where
  r : Nat
  g : Nat
  b : Nat
deriving DecidableEq

/-- The sparse visual palette `byByte` of `colors.js`: the ~15 known terrain
byte values. A byte absent from the table yields `none` (JavaScript
`undefined`). -/
def colorsByByte (b : Nat) : Option Color :=
  match b with
  | 0x00 => some ⟨0, 0, 0⟩        -- black (empty)
  | 0x0C => some ⟨0, 102, 0⟩      -- dark green (tree)
  | 0x18 => some ⟨0, 204, 0⟩      -- green (grass)
  | 0x33 => some ⟨51, 102, 153⟩   -- light blue (water)
  | 0x56 => some ⟨102, 102, 102⟩  -- dark gray (rock/mountain)
  | 0x72 => some ⟨153, 51, 0⟩     -- dark brown (earth/stalagmite)
  | 0x79 => some ⟨153, 102, 51⟩   -- brown (earth)
  | 0x81 => some ⟨153, 153, 153⟩  -- gray (stone tile/cobbled pavement)
  | 0x8C => some ⟨153, 255, 102⟩  -- light green (light spot in grassy area)
  | 0xB3 => some ⟨204, 255, 255⟩  -- light blue (ice)
  | 0xBA => some ⟨255, 51, 0⟩     -- red (wall)
  | 0xC0 => some ⟨255, 102, 0⟩    -- orange (lava)
  | 0xCF => some ⟨255, 204, 153⟩  -- beige (sand)
  | 0xD2 => some ⟨255, 255, 0⟩    -- yellow (ladder/stairs/hole/…)
  | 0xD7 => some ⟨255, 255, 255⟩  -- white (snow)
  | _ => none

/-- `colors.js`: `nonWalkablePath` is `byByte[0xD2]`, i.e. the yellow used
for ladders and stairs. -/
def nonWalkablePath : Color := (colorsByByte 0xD2).getD ⟨0, 0, 0⟩

/-- `colors.js`: `unexploredPath` is the literal `{ r: 0xFA, g: 0xFA, b: 0xFA }`. -/
def unexploredPath : Color := ⟨0xFA, 0xFA, 0xFA⟩

/-- `colors.js`: `nonWalkablePathByte` is `0xFF`. -/
def nonWalkablePathByte : Nat := 0xFF

/-- `colors.js`: `unexploredPathByte` is `0xFA`. -/
def unexploredPathByte : Nat := 0xFA

/-- The visual pixel palette of `from-maps.js`: one entry per key of
`colors.byByte`.  (The source stores a 1×1 `ImageData` per byte; only the
color matters here.) -/
def mapPixelPalette (b : Nat) : Option Color := colorsByByte b

/-- The pathfinding pixel palette of `from-maps.js`: the loop
`for pixelByte of range(0, 256)` fills every byte with the grayscale color
`{r: b, g: b, b: b}` except `nonWalkablePathByte` (0xFF) which receives
`colors.nonWalkablePath`; afterwards the entry for `unexploredPathByte`
(0xFA) is overwritten with `colors.unexploredPath`.  Keys outside 0–255 do
not exist (`none`). -/
def pathPixelPalette (b : Nat) : Option Color :=
  if b < 256 then
    some (if b = unexploredPathByte then unexploredPath
          else if b = nonWalkablePathByte then nonWalkablePath
          else ⟨b, b, b⟩)
  else none

/-! ### Node.js `Buffer` read primitives

A `Buffer` is a `List Nat` of byte values.  `readUIntLE(offset, n)` and
`readUInt8(offset)` bounds-check and throw `RangeError('Index out of
range')` when the requested bytes extend past the end of the buffer;
`slice(a, b)` clamps to the available bytes and never throws. -/

/-- JavaScript indexing `buffer[i]`: `undefined` (`none`) out of range. -/
def jsIndex (buffer : List Nat) (i : Nat) : Option Nat := buffer[i]?

/-- `buffer.readUInt8(i)`: the byte at `i`, or a thrown `RangeError`. -/
def readUInt8 (buffer : List Nat) (i : Nat) : Except String Nat :=
  if i + 1 ≤ buffer.length then .ok (buffer.getD i 0)
  else .error "Index out of range"

/-- The little-endian value of `n` bytes starting at `i` (byte `i` is the
least significant). -/
def bytesLE (buffer : List Nat) : Nat → Nat → Nat
  | _, 0 => 0
  | i, n + 1 => buffer.getD i 0 + 256 * bytesLE buffer (i + 1) n

/-- `buffer.readUIntLE(i, n)`: `n` bytes starting at `i`, combined
little-endian, or a thrown `RangeError`. -/
def readUIntLE (buffer : List Nat) (i : Nat) (n : Nat) : Except String Nat :=
  if i + n ≤ buffer.length then .ok (bytesLE buffer i n)
  else .error "Index out of range"

/-- Whether an `Except` result is a success (i.e. the JavaScript call
returned rather than threw). -/
def isOkE : Except String α → Bool
  | .ok _ => true
  | .error _ => false

/-- `buffer.slice(a, a + len)`: clamps, never throws. -/
def bufferSlice (buffer : List Nat) (a : Nat) (len : Nat) : List Nat :=
  (buffer.drop a).take len

/-! ### Marker codec -/

/-- The windows-1252 decode table used for marker descriptions
(`windows1252.decode(descriptionBuffer.toString('binary'))`): bytes
0x80–0x9F map to the WHATWG windows-1252 code points (curly quotes, the
euro sign, …; the five unassigned bytes pass through), every other byte is
its own code point. -/
def win1252Byte (b : Nat) : Nat :=
  match b with
  | 0x80 => 0x20AC  -- euro sign
  | 0x82 => 0x201A
  | 0x83 => 0x0192
  | 0x84 => 0x201E
  | 0x85 => 0x2026
  | 0x86 => 0x2020
  | 0x87 => 0x2021
  | 0x88 => 0x02C6
  | 0x89 => 0x2030
  | 0x8A => 0x0160
  | 0x8B => 0x2039
  | 0x8C => 0x0152
  | 0x8E => 0x017D
  | 0x91 => 0x2018
  | 0x92 => 0x2019
  | 0x93 => 0x201C
  | 0x94 => 0x201D
  | 0x95 => 0x2022
  | 0x96 => 0x2013
  | 0x97 => 0x2014
  | 0x98 => 0x02DC
  | 0x99 => 0x2122
  | 0x9A => 0x0161
  | 0x9B => 0x203A
  | 0x9C => 0x0153
  | 0x9E => 0x017E
  | 0x9F => 0x0178
  | _ => b

/-- A decoded map marker.  `description` is the list of decoded code
points.

Modelled from the spec: `icons.js` is not among the sources, so following
§3 of the spec ("icon: integer image identifier") the `icon` field holds
the 4-byte little-endian image identifier itself rather than the name the
missing `icons.byID` table would attach to it. -/
structure Marker where
  x : Nat
  y : Nat
  z : Nat
  icon : Nat
  description : List Nat
deriving DecidableEq

/-- `String.prototype.toLowerCase` restricted to the code points that
windows-1252 decoding can produce. -/
def jsToLower (c : Nat) : Nat :=
  if 65 ≤ c ∧ c ≤ 90 then c + 32            -- A–Z
  else if 192 ≤ c ∧ c ≤ 214 then c + 32     -- À–Ö
  else if 216 ≤ c ∧ c ≤ 222 then c + 32     -- Ø–Þ
  else if c = 0x0152 then 0x0153            -- Œ
  else if c = 0x0160 then 0x0161            -- Š
  else if c = 0x0178 then 0x00FF            -- Ÿ
  else if c = 0x017D then 0x017E            -- Ž
  else c

/-- The deduplication key of `parseMarkerData`: the source lowercases
`JSON.stringify(marker)`, which compares the numeric fields exactly and
the description case-insensitively. -/
def markerKeyCI (m : Marker) : Nat × Nat × Nat × Nat × List Nat :=
  (m.x, m.y, m.z, m.icon, m.description.map jsToLower)

/-- The sort key of `parseMarkerData`: the comparator is
`(a.x * 100000 + a.y) - (b.x * 100000 + b.y)`. -/
def markerSortKey (m : Marker) : Nat := m.x * 100000 + m.y

/-- The sort relation induced by the comparator. -/
def markerLE (a b : Marker) : Prop := markerSortKey a ≤ markerSortKey b

instance : DecidableRel markerLE := fun a b =>
  inferInstanceAs (Decidable (markerSortKey a ≤ markerSortKey b))

/-- `markers.sort(comparator)` modelled as an insertion sort on the
comparator's order (the sorted result is what the claims are about). -/
def sortMarkers (l : List Marker) : List Marker := List.insertionSort markerLE l

/-- The duplicate filter of `parseMarkerData`: keep a marker only if its
lowercased serialization was not seen before. -/
def dedupMarkers (seen : List (Nat × Nat × Nat × Nat × List Nat)) :
    List Marker → List Marker
  | [] => []
  | m :: rest =>
    if markerKeyCI m ∈ seen then dedupMarkers seen rest
    else m :: dedupMarkers (markerKeyCI m :: seen) rest

/-- One iteration of the marker loop of `parseMarkerData`, starting at
byte offset `index`.  Reads, in order: the `x` offset and tile bytes,
skips two reserved bytes (the source's `console.assert(index++, 0x00)`
passes the pre-increment `index` — always ≥ 6 here, hence truthy — as the
asserted value and `0x00` as the message, so the reserved bytes are never
read or validated), the `y` offset and tile bytes, skips two more reserved
bytes, the 4-byte icon id, the 2-byte description length, and finally the
description bytes via a clamping `slice`.  Returns the marker and the next
record's offset. -/
def parseRecord (buffer : List Nat) (floor : Nat) (index : Nat) :
    Except String (Marker × Nat) :=
  match readUInt8 buffer index with
  | .error e => .error e
  | .ok xOffset =>
  match readUInt8 buffer (index + 1) with
  | .error e => .error e
  | .ok xTile =>
  match readUInt8 buffer (index + 4) with
  | .error e => .error e
  | .ok yOffset =>
  match readUInt8 buffer (index + 5) with
  | .error e => .error e
  | .ok yTile =>
  match readUIntLE buffer (index + 8) 4 with
  | .error e => .error e
  | .ok iconId =>
  match readUIntLE buffer (index + 12) 2 with
  | .error e => .error e
  | .ok descriptionLength =>
    let descriptionBytes := bufferSlice buffer (index + 14) descriptionLength
    .ok (⟨xTile * 256 + xOffset, yTile * 256 + yOffset, floor, iconId,
          descriptionBytes.map win1252Byte⟩,
         index + 14 + descriptionLength)

/-- The `while (markers.length < markerCount)` loop: parse `n` records
starting at `index`, returning them in input order together with the final
offset. -/
def parseRecordsAux (buffer : List Nat) (floor : Nat) :
    Nat → Nat → Except String (List Marker × Nat)
  | 0, index => .ok ([], index)
  | n + 1, index =>
    match parseRecord buffer floor index with
    | .error e => .error e
    | .ok (marker, index') =>
      match parseRecordsAux buffer floor n index' with
      | .error e => .error e
      | .ok (rest, finalIndex) => .ok (marker :: rest, finalIndex)

/-- `parseMarkerData(buffer, floor)`: read the 4-byte little-endian marker
count, return `[]` for a zero count, otherwise parse that many records,
sort by `(x*100000 + y)` and remove duplicate markers. -/
def parseMarkerData (buffer : List Nat) (floor : Nat) :
    Except String (List Marker) :=
  match readUIntLE buffer 0 4 with
  | .error e => .error e
  | .ok markerCount =>
    if markerCount = 0 then .ok []
    else
      match parseRecordsAux buffer floor markerCount 4 with
      | .error e => .error e
      | .ok (records, _) => .ok (dedupMarkers [] (sortMarkers records))

/-! ### Rendering loops

`renderMap` and `renderPath` are the same nested loop over a different
palette: `while (++xIndex < 256) while (++yIndex < 256)` reads
`buffer[++bufferIndex]`, looks the byte up in the palette and calls
`context.putImageData(entry, xIndex, yIndex)`.  A missing entry is fatal
to the call: `console.assert` reports `Unknown color ID` and
`putImageData` rejects the `undefined` entry (on classic Node the failed
assertion itself throws).  The model records the sequence of
`putImageData` calls as `(xIndex, yIndex, color)` triples. -/

/-- Look `buffer[bufferIndex]` up in a palette: `none` when the index is
out of range (`undefined`) or the byte has no palette entry. -/
def jsLook (palette : Nat → Option Color) (buffer : List Nat) (i : Nat) :
    Option Color :=
  match jsIndex buffer i with
  | none => none
  | some b => palette b

/-- The inner `yIndex` loop for one fixed `xIndex`, with `yFuel`
iterations left.  `bufferIndex` is the next index to read (the source
pre-increments).  Returns the emitted pixels and the final buffer index. -/
def renderLayerCol (palette : Nat → Option Color) (buffer : List Nat)
    (xIndex : Nat) : Nat → Nat → Nat →
    Except String (List (Nat × Nat × Color) × Nat)
  | _, bufferIndex, 0 => .ok ([], bufferIndex)
  | yIndex, bufferIndex, yFuel + 1 =>
    match jsLook palette buffer bufferIndex with
    | none => .error "Unknown color ID"
    | some color =>
      match renderLayerCol palette buffer xIndex (yIndex + 1) (bufferIndex + 1) yFuel with
      | .error e => .error e
      | .ok (rest, finalIndex) => .ok ((xIndex, yIndex, color) :: rest, finalIndex)

/-- The outer `xIndex` loop with `xFuel` iterations left. -/
def renderLayerAll (palette : Nat → Option Color) (buffer : List Nat) :
    Nat → Nat → Nat → Except String (List (Nat × Nat × Color) × Nat)
  | _, bufferIndex, 0 => .ok ([], bufferIndex)
  | xIndex, bufferIndex, xFuel + 1 =>
    match renderLayerCol palette buffer xIndex 0 bufferIndex 256 with
    | .error e => .error e
    | .ok (col, bufferIndex') =>
      match renderLayerAll palette buffer (xIndex + 1) bufferIndex' xFuel with
      | .error e => .error e
      | .ok (rest, finalIndex) => .ok (col ++ rest, finalIndex)

/-- `renderMap` / `renderPath`: 256 × 256 pixels from byte 0 onwards. -/
def renderLayer (palette : Nat → Option Color) (buffer : List Nat) :
    Except String (List (Nat × Nat × Color)) :=
  (renderLayerAll palette buffer 0 0 256).map (·.1)

/-! ### Per-tile and per-floor driver -/

/-- The bounds of the tile set, as far as `drawMapSection` consumes them. -/
structure Bounds where
  xMin : Int
  yMin : Int
  width : Nat
  height : Nat

/-- The (x, y, z) coordinates derived from a tile identifier. -/
structure Coords where
  x : Int
  y : Int
  z : Nat

/-- The outcome of `drawMapSection` for one tile: the `putImageData`
calls against the floor-wide visual and pathfinding contexts (in absolute
floor-raster pixels), whether the empty-marker-block warning was printed,
and — when markers are included — the decoded marker list. -/
structure TileOutput where
  mapOps : List (Int × Int × Color)
  pathOps : List (Int × Int × Color)
  emptyMarkerWarning : Bool
  markers : Option (List Marker)
deriving DecidableEq

/-- `drawMapSection(fileName, includeMarkers)` after the file read: slice
the visual layer (bytes [0, 0x10000)), render it and paste it at
`((x − bounds.xMin) * 256, (y − bounds.yMin) * 256)`; same for the
pathfinding layer (bytes [0x10000, 0x20000)); warn when the marker block
(bytes from 0x20000) is empty; and, only if `includeMarkers`, run
`parseMarkerData` on the marker block with the tile's floor. -/
def drawMapSection (bounds : Bounds) (coordinates : Coords)
    (buffer : List Nat) (includeMarkers : Bool) :
    Except String TileOutput :=
  let xOffset : Int := (coordinates.x - bounds.xMin) * 256
  let yOffset : Int := (coordinates.y - bounds.yMin) * 256
  let mapData := bufferSlice buffer 0 0x10000
  match renderLayer mapPixelPalette mapData with
  | .error e => .error e
  | .ok mapImageData =>
  let mapOps := mapImageData.map
    (fun p => (xOffset + (p.1 : Int), yOffset + (p.2.1 : Int), p.2.2))
  let pathData := bufferSlice buffer 0x10000 0x10000
  match renderLayer pathPixelPalette pathData with
  | .error e => .error e
  | .ok pathImageData =>
  let pathOps := pathImageData.map
    (fun p => (xOffset + (p.1 : Int), yOffset + (p.2.1 : Int), p.2.2))
  let markerData := buffer.drop 0x20000
  let warned := markerData.length == 0
  if includeMarkers then
    match parseMarkerData markerData coordinates.z with
    | .error e => .error e
    | .ok results => .ok ⟨mapOps, pathOps, warned, some results⟩
  else
    .ok ⟨mapOps, pathOps, warned, none⟩

/-- The per-floor loop body of `renderFloor`: process each tile of the
floor sequentially with `drawMapSection`, accumulating the module-level
`markers` object (a tile identifier is recorded only when its decoded
list is non-empty). -/
def processTiles (bounds : Bounds)
    (tiles : List (Coords × List Nat)) (includeMarkers : Bool) :
    Except String (List TileOutput × List (Coords × List Marker)) :=
  match tiles with
  | [] => .ok ([], [])
  | (coordinates, buffer) :: rest =>
    match drawMapSection bounds coordinates buffer includeMarkers with
    | .error e => .error e
    | .ok out =>
      match processTiles bounds rest includeMarkers with
      | .error e => .error e
      | .ok (outs, acc) =>
        let acc' := match out.markers with
          | some results =>
            if results.length ≠ 0 then (coordinates, results) :: acc else acc
          | none => acc
        .ok (out :: outs, acc')

/-- The marker JSON written by `renderFloor`:
`includeMarkers ? markers : {}`. -/
def floorMarkersJSON (includeMarkers : Bool)
    (acc : List (Coords × List Marker)) : List (Coords × List Marker) :=
  if includeMarkers then acc else []

/-! ### Characterisation of the rendering loops -/

/-- The color a layer byte renders to (only meaningful when the lookup
succeeds). -/
def layerColorAt (palette : Nat → Option Color) (buffer : List Nat) (i : Nat) : Color :=
  (jsLook palette buffer i).getD ⟨0, 0, 0⟩

/-! ### Characterisation of `drawMapSection` and the per-floor loop -/

/-- The `putImageData` calls one 256×256 layer of a tile contributes to
the floor-wide raster: byte `k` of the layer lands at floor-raster column
`(x − xMin) * 256 + k / 256` and row `(y − yMin) * 256 + k % 256`. -/
def tileLayerOps (palette : Nat → Option Color) (bounds : Bounds)
    (coordinates : Coords) (layer : List Nat) : List (Int × Int × Color) :=
  (List.range 65536).map fun k =>
    ((coordinates.x - bounds.xMin) * 256 + ((k / 256 : Nat) : Int),
     (coordinates.y - bounds.yMin) * 256 + ((k % 256 : Nat) : Int),
     layerColorAt palette layer k)

/-! ### Sorting and deduplication lemmas -/

instance : IsTotal Marker markerLE :=
  ⟨fun a b => Nat.le_total (markerSortKey a) (markerSortKey b)⟩

instance : IsTrans Marker markerLE :=
  ⟨fun _ _ _ h1 h2 => Nat.le_trans h1 h2⟩

/-! ### The reserved bytes of the marker records -/

/-- The byte offsets within a marker block that the parser skips without
reading: for each record starting at `i`, the two reserved bytes after the
`x` pair (`i+2`, `i+3`) and the two after the `y` pair (`i+6`, `i+7`). -/
def reservedAux (buffer : List Nat) : Nat → Nat → List Nat
  | 0, _ => []
  | n + 1, i =>
    (i + 2) :: (i + 3) :: (i + 6) :: (i + 7) ::
      reservedAux buffer n (i + 14 + bytesLE buffer (i + 12) 2)

/-- All reserved byte offsets of a marker block: the records start at
offset 4, and there are as many as the 4-byte little-endian count says. -/
def reservedOffsets (buffer : List Nat) : List Nat :=
  reservedAux buffer (bytesLE buffer 0 4) 4

/-! ### Concrete tiles used as evidence -/

/-- A bounds value for a small run (the §8 example dimensions). -/
def bounds0 : Bounds := ⟨0, 0, 768, 512⟩

/-- Coordinates of a tile at the bounds origin, on floor 7. -/
def coords0 : Coords := ⟨0, 0, 7⟩

/-- A visual layer whose byte 1 is grass (0x18) and all other bytes are
empty (0x00): the asymmetric probe that separates row-major from
column-major rendering. -/
def c2visual : List Nat := 0x00 :: 0x18 :: List.replicate 65534 0x00

/-- A full tile carrying `c2visual`, an all-zero pathfinding layer and no
marker bytes. -/
def c2tile : List Nat := c2visual ++ List.replicate 65536 0x00

/-- A 0x20000-byte tile file with no marker bytes at all — the shape of
the real-world `12712113.map` named in the source comment. -/
def markerlessTile : List Nat := List.replicate 131072 0x00

/-- A tile whose marker block is the well-formed zero-count `00 00 00 00`. -/
def zeroCountTile : List Nat := List.replicate 131072 0x00 ++ [0, 0, 0, 0]

/-! ### Further concrete inputs and per-tile helper results -/

/-- A visual layer whose first byte (0x01) has no entry in the visual
palette. -/
def unknownByteVisual : List Nat := 0x01 :: List.replicate 65535 0x00

/-- A marker block with one record: x = 5, y = 6, icon 9, description
`AB`. -/
def c3block : List Nat :=
  [1, 0, 0, 0, 5, 0, 0, 0, 6, 0, 0, 0, 9, 0, 0, 0, 2, 0, 65, 66]

/-- The marker `c3block` decodes to (on floor 7). -/
def c3marker : Marker := ⟨5, 6, 7, 9, [65, 66]⟩

/-- A marker block with three empty-description records at (10,20), (5,5)
and (10,10), in that file order — the §8 ordering example. -/
def c4block : List Nat :=
  [3, 0, 0, 0,
   10, 0, 0, 0, 20, 0, 0, 0, 1, 0, 0, 0, 0, 0,
   5, 0, 0, 0, 5, 0, 0, 0, 1, 0, 0, 0, 0, 0,
   10, 0, 0, 0, 10, 0, 0, 0, 1, 0, 0, 0, 0, 0]

/-- The expected decode of `c4block`: ascending by `x*100000 + y`. -/
def c4sorted : List Marker :=
  [⟨5, 5, 7, 1, []⟩, ⟨10, 10, 7, 1, []⟩, ⟨10, 20, 7, 1, []⟩]

/-- A marker block with two records identical except for the case of the
description (`AB` vs `ab`). -/
def c5block : List Nat :=
  [2, 0, 0, 0,
   5, 0, 0, 0, 6, 0, 0, 0, 9, 0, 0, 0, 2, 0, 65, 66,
   5, 0, 0, 0, 6, 0, 0, 0, 9, 0, 0, 0, 2, 0, 97, 98]

/-- A marker block declaring one record with a 5-byte description of which
only 2 bytes are present: the block needs 23 bytes but has 20. -/
def c8block : List Nat :=
  [1, 0, 0, 0, 5, 0, 0, 0, 6, 0, 0, 0, 9, 0, 0, 0, 5, 0, 65, 66]

/-- A one-record marker block with zeroed reserved bytes. -/
def c10a : List Nat :=
  [1, 0, 0, 0, 5, 0, 0, 0, 6, 0, 0, 0, 9, 0, 0, 0, 0, 0]

/-- `c10a` with arbitrary junk in the four reserved byte positions
(offsets 6, 7, 10, 11). -/
def c10b : List Nat :=
  [1, 0, 0, 0, 5, 0, 99, 88, 6, 0, 77, 66, 9, 0, 0, 0, 0, 0]

/-- What `drawMapSection` produces for `markerlessTile` with markers
excluded. -/
def c1out : TileOutput :=
  ⟨tileLayerOps mapPixelPalette bounds0 coords0 (List.replicate 65536 0x00),
   tileLayerOps pathPixelPalette bounds0 coords0 (List.replicate 65536 0x00),
   true, none⟩

/-- What `drawMapSection` produces for `c2tile` with markers excluded. -/
def c2out : TileOutput :=
  ⟨tileLayerOps mapPixelPalette bounds0 coords0 c2visual,
   tileLayerOps pathPixelPalette bounds0 coords0 (List.replicate 65536 0x00),
   true, none⟩

/-- What `drawMapSection` produces for `zeroCountTile` with markers
included. -/
def c9out : TileOutput :=
  ⟨tileLayerOps mapPixelPalette bounds0 coords0 (List.replicate 65536 0x00),
   tileLayerOps pathPixelPalette bounds0 coords0 (List.replicate 65536 0x00),
   false, some []⟩

theorem renderLayerCol_ok (palette : Nat → Option Color) (buffer : List Nat)
    (xIndex : Nat) :
    ∀ (yFuel yIndex bufferIndex : Nat),
    (∀ k, k < yFuel → (jsLook palette buffer (bufferIndex + k)).isSome) →
    renderLayerCol palette buffer xIndex yIndex bufferIndex yFuel =
      .ok ((List.range yFuel).map
            (fun k => (xIndex, yIndex + k, layerColorAt palette buffer (bufferIndex + k))),
           bufferIndex + yFuel) := by
  intro yFuel
  induction yFuel with
  | zero => intro yIndex bufferIndex _; simp [renderLayerCol]
  | succ f ih =>
    intro yIndex bufferIndex h
    have h0 : (jsLook palette buffer bufferIndex).isSome := by
      simpa using h 0 (Nat.succ_pos _)
    obtain ⟨c, hc⟩ := Option.isSome_iff_exists.mp h0
    have ihs := ih (yIndex + 1) (bufferIndex + 1)
      (fun k hk => by
        have e : bufferIndex + 1 + k = bufferIndex + (k + 1) := by omega
        rw [e]; exact h (k + 1) (by omega))
    have hmap : (List.range (f + 1)).map
        (fun k => (xIndex, yIndex + k, layerColorAt palette buffer (bufferIndex + k))) =
        (xIndex, yIndex, c) ::
          (List.range f).map
            (fun k => (xIndex, yIndex + 1 + k, layerColorAt palette buffer (bufferIndex + 1 + k))) := by
      rw [List.range_succ_eq_map, List.map_cons, List.map_map]
      refine congrArg₂ _ (by simp [layerColorAt, hc]) ?_
      refine List.map_congr_left fun k _ => ?_
      have e1 : yIndex + (k + 1) = yIndex + 1 + k := by omega
      have e2 : bufferIndex + (k + 1) = bufferIndex + 1 + k := by omega
      simp [Function.comp, Nat.succ_eq_add_one, e1, e2]
    have e3 : bufferIndex + (f + 1) = bufferIndex + 1 + f := by omega
    rw [e3, hmap]
    simp only [renderLayerCol, hc, ihs]

theorem renderLayerAll_ok (palette : Nat → Option Color) (buffer : List Nat) :
    ∀ (xFuel xIndex bufferIndex : Nat),
    (∀ k, k < 256 * xFuel → (jsLook palette buffer (bufferIndex + k)).isSome) →
    renderLayerAll palette buffer xIndex bufferIndex xFuel =
      .ok ((List.range (256 * xFuel)).map
            (fun k => (xIndex + k / 256, k % 256, layerColorAt palette buffer (bufferIndex + k))),
           bufferIndex + 256 * xFuel) := by
  intro xFuel
  induction xFuel with
  | zero => intro xIndex bufferIndex _; simp [renderLayerAll]
  | succ f ih =>
    intro xIndex bufferIndex h
    have hcol := renderLayerCol_ok palette buffer xIndex 256 0 bufferIndex
      (fun k hk => h k (by omega))
    have ihs := ih (xIndex + 1) (bufferIndex + 256)
      (fun k hk => by
        have e : bufferIndex + 256 + k = bufferIndex + (256 + k) := by omega
        rw [e]; exact h (256 + k) (by omega))
    have hsplit : (List.range (256 * (f + 1))).map
        (fun k => (xIndex + k / 256, k % 256, layerColorAt palette buffer (bufferIndex + k))) =
        ((List.range 256).map
          (fun k => (xIndex, 0 + k, layerColorAt palette buffer (bufferIndex + k)))) ++
        ((List.range (256 * f)).map
          (fun k => (xIndex + 1 + k / 256, k % 256,
            layerColorAt palette buffer (bufferIndex + 256 + k)))) := by
      have e : 256 * (f + 1) = 256 + 256 * f := by ring
      rw [e, List.range_add, List.map_append, List.map_map]
      refine congrArg₂ _ ?_ ?_
      · refine List.map_congr_left fun k hk => ?_
        have hk' : k < 256 := List.mem_range.mp hk
        have d1 : k / 256 = 0 := Nat.div_eq_of_lt hk'
        have d2 : k % 256 = k := Nat.mod_eq_of_lt hk'
        simp [d1, d2]
      · refine List.map_congr_left fun k _ => ?_
        have d1 : xIndex + (256 + k) / 256 = xIndex + 1 + k / 256 := by
          rw [Nat.add_comm 256 k, Nat.add_div_right _ (by norm_num)]
          omega
        have d2 : (256 + k) % 256 = k % 256 := Nat.add_mod_left 256 k
        have e2 : bufferIndex + (256 + k) = bufferIndex + 256 + k := by omega
        simp [Function.comp, d1, d2, e2]
        omega
    have e4 : bufferIndex + 256 * (f + 1) = bufferIndex + 256 + 256 * f := by ring
    rw [e4, hsplit]
    simp [renderLayerAll, hcol, ihs]

theorem renderLayer_ok (palette : Nat → Option Color) (buffer : List Nat)
    (h : ∀ k, k < 65536 → (jsLook palette buffer k).isSome) :
    renderLayer palette buffer =
      .ok ((List.range 65536).map
        (fun k => (k / 256, k % 256, layerColorAt palette buffer k))) := by
  have hall := renderLayerAll_ok palette buffer 256 0 0
    (fun k hk => by simpa using h k (by omega))
  have e : (256 : Nat) * 256 = 65536 := by norm_num
  rw [e] at hall
  unfold renderLayer
  rw [hall]
  simp only [Except.map]
  refine congrArg _ ?_
  refine List.map_congr_left fun k _ => ?_
  simp

theorem renderLayerCol_lookups (palette : Nat → Option Color) (buffer : List Nat)
    (xIndex : Nat) :
    ∀ (yFuel yIndex bufferIndex : Nat) (r : List (Nat × Nat × Color) × Nat),
    renderLayerCol palette buffer xIndex yIndex bufferIndex yFuel = .ok r →
    ∀ k, k < yFuel → (jsLook palette buffer (bufferIndex + k)).isSome := by
  intro yFuel
  induction yFuel with
  | zero => intro _ _ _ _ k hk; omega
  | succ f ih =>
    intro yIndex bufferIndex r hr k hk
    cases hl : jsLook palette buffer bufferIndex with
    | none => simp [renderLayerCol, hl] at hr
    | some c =>
      cases hrec : renderLayerCol palette buffer xIndex (yIndex + 1) (bufferIndex + 1) f with
      | error e => simp [renderLayerCol, hl, hrec] at hr
      | ok p =>
        match k with
        | 0 => simpa using congrArg Option.isSome hl
        | k + 1 =>
          have hk' := ih (yIndex + 1) (bufferIndex + 1) p hrec k (by omega)
          have e : bufferIndex + (k + 1) = bufferIndex + 1 + k := by omega
          rw [e]; exact hk'

theorem renderLayerAll_lookups (palette : Nat → Option Color) (buffer : List Nat) :
    ∀ (xFuel xIndex bufferIndex : Nat) (r : List (Nat × Nat × Color) × Nat),
    renderLayerAll palette buffer xIndex bufferIndex xFuel = .ok r →
    ∀ k, k < 256 * xFuel → (jsLook palette buffer (bufferIndex + k)).isSome := by
  intro xFuel
  induction xFuel with
  | zero => intro _ _ _ _ k hk; omega
  | succ f ih =>
    intro xIndex bufferIndex r hr k hk
    cases hcol : renderLayerCol palette buffer xIndex 0 bufferIndex 256 with
    | error e => simp [renderLayerAll, hcol] at hr
    | ok p =>
      obtain ⟨col, bufferIndex'⟩ := p
      have hend : bufferIndex' = bufferIndex + 256 := by
        have hfull := renderLayerCol_ok palette buffer xIndex 256 0 bufferIndex
          (renderLayerCol_lookups palette buffer xIndex 256 0 bufferIndex
            (col, bufferIndex') hcol)
        rw [hcol] at hfull
        exact congrArg Prod.snd (Except.ok.inj hfull)
      by_cases hk256 : k < 256
      · exact renderLayerCol_lookups palette buffer xIndex 256 0 bufferIndex
          (col, bufferIndex') hcol k hk256
      · cases hrest : renderLayerAll palette buffer (xIndex + 1) bufferIndex' f with
        | error e => simp [renderLayerAll, hcol, hrest] at hr
        | ok q =>
          have hk' := ih (xIndex + 1) bufferIndex' q hrest (k - 256) (by omega)
          rw [hend] at hk'
          have e : bufferIndex + 256 + (k - 256) = bufferIndex + k := by omega
          rw [e] at hk'
          exact hk'

theorem renderLayer_lookups (palette : Nat → Option Color) (buffer : List Nat)
    (r : List (Nat × Nat × Color)) (h : renderLayer palette buffer = .ok r) :
    ∀ k, k < 65536 → (jsLook palette buffer k).isSome := by
  intro k hk
  cases hall : renderLayerAll palette buffer 0 0 256 with
  | error e => simp [renderLayer, hall, Except.map] at h
  | ok p =>
    have := renderLayerAll_lookups palette buffer 256 0 0 p hall k (by omega)
    simpa using this

theorem drawMapSection_ok_false (bounds : Bounds) (coordinates : Coords)
    (buffer : List Nat)
    (hm : ∀ k, k < 65536 →
      (jsLook mapPixelPalette (bufferSlice buffer 0 0x10000) k).isSome)
    (hp : ∀ k, k < 65536 →
      (jsLook pathPixelPalette (bufferSlice buffer 0x10000 0x10000) k).isSome) :
    drawMapSection bounds coordinates buffer false =
      .ok ⟨tileLayerOps mapPixelPalette bounds coordinates (bufferSlice buffer 0 0x10000),
           tileLayerOps pathPixelPalette bounds coordinates (bufferSlice buffer 0x10000 0x10000),
           (buffer.drop 0x20000).length == 0, none⟩ := by
  have h1 := renderLayer_ok mapPixelPalette (bufferSlice buffer 0 0x10000) hm
  have h2 := renderLayer_ok pathPixelPalette (bufferSlice buffer 0x10000 0x10000) hp
  simp only [drawMapSection, h1, h2]
  simp [tileLayerOps, List.map_map, Function.comp]

theorem drawMapSection_ok_true (bounds : Bounds) (coordinates : Coords)
    (buffer : List Nat) (ms : List Marker)
    (hm : ∀ k, k < 65536 →
      (jsLook mapPixelPalette (bufferSlice buffer 0 0x10000) k).isSome)
    (hp : ∀ k, k < 65536 →
      (jsLook pathPixelPalette (bufferSlice buffer 0x10000 0x10000) k).isSome)
    (hmk : parseMarkerData (buffer.drop 0x20000) coordinates.z = .ok ms) :
    drawMapSection bounds coordinates buffer true =
      .ok ⟨tileLayerOps mapPixelPalette bounds coordinates (bufferSlice buffer 0 0x10000),
           tileLayerOps pathPixelPalette bounds coordinates (bufferSlice buffer 0x10000 0x10000),
           (buffer.drop 0x20000).length == 0, some ms⟩ := by
  have h1 := renderLayer_ok mapPixelPalette (bufferSlice buffer 0 0x10000) hm
  have h2 := renderLayer_ok pathPixelPalette (bufferSlice buffer 0x10000 0x10000) hp
  simp only [drawMapSection, h1, h2, hmk]
  simp [tileLayerOps, List.map_map, Function.comp]

theorem drawMapSection_marker_error (bounds : Bounds) (coordinates : Coords)
    (buffer : List Nat)
    (hmk : isOkE (parseMarkerData (buffer.drop 0x20000) coordinates.z) = false) :
    isOkE (drawMapSection bounds coordinates buffer true) = false := by
  cases h1 : renderLayer mapPixelPalette (bufferSlice buffer 0 0x10000) with
  | error e => simp [drawMapSection, h1, isOkE]
  | ok mi =>
    cases h2 : renderLayer pathPixelPalette (bufferSlice buffer 0x10000 0x10000) with
    | error e => simp [drawMapSection, h1, h2, isOkE]
    | ok pi =>
      cases h3 : parseMarkerData (buffer.drop 0x20000) coordinates.z with
      | error e => simp [drawMapSection, h1, h2, h3, isOkE]
      | ok ms => rw [h3] at hmk; simp [isOkE] at hmk

theorem drawMapSection_true_false (bounds : Bounds) (coordinates : Coords)
    (buffer : List Nat) (out : TileOutput)
    (h : drawMapSection bounds coordinates buffer true = .ok out) :
    drawMapSection bounds coordinates buffer false =
      .ok ⟨out.mapOps, out.pathOps, out.emptyMarkerWarning, none⟩ := by
  cases h1 : renderLayer mapPixelPalette (bufferSlice buffer 0 0x10000) with
  | error e => simp [drawMapSection, h1] at h
  | ok mi =>
    cases h2 : renderLayer pathPixelPalette (bufferSlice buffer 0x10000 0x10000) with
    | error e => simp [drawMapSection, h1, h2] at h
    | ok pi =>
      cases h3 : parseMarkerData (buffer.drop 0x20000) coordinates.z with
      | error e => simp [drawMapSection, h1, h2, h3] at h
      | ok ms =>
        have hout : drawMapSection bounds coordinates buffer true =
            .ok ⟨mi.map (fun p =>
                  ((coordinates.x - bounds.xMin) * 256 + (p.1 : Int),
                   (coordinates.y - bounds.yMin) * 256 + (p.2.1 : Int), p.2.2)),
                 pi.map (fun p =>
                  ((coordinates.x - bounds.xMin) * 256 + (p.1 : Int),
                   (coordinates.y - bounds.yMin) * 256 + (p.2.1 : Int), p.2.2)),
                 (buffer.drop 0x20000).length == 0, some ms⟩ := by
          simp [drawMapSection, h1, h2, h3]
        rw [hout] at h
        obtain rfl := (Except.ok.inj h).symm
        simp [drawMapSection, h1, h2]

theorem processTiles_true_false (bounds : Bounds) :
    ∀ (tiles : List (Coords × List Nat)) (outs : List TileOutput)
      (acc : List (Coords × List Marker)),
    processTiles bounds tiles true = .ok (outs, acc) →
    processTiles bounds tiles false =
      .ok (outs.map (fun o => ⟨o.mapOps, o.pathOps, o.emptyMarkerWarning, none⟩), []) := by
  intro tiles
  induction tiles with
  | nil =>
    intro outs acc h
    simp [processTiles] at h
    obtain ⟨rfl, rfl⟩ := h
    simp [processTiles]
  | cons t rest ih =>
    obtain ⟨coordinates, buffer⟩ := t
    intro outs acc h
    cases hd : drawMapSection bounds coordinates buffer true with
    | error e => simp [processTiles, hd] at h
    | ok out =>
      cases hr : processTiles bounds rest true with
      | error e => simp [processTiles, hd, hr] at h
      | ok p =>
        obtain ⟨outs', acc'⟩ := p
        have hfd := drawMapSection_true_false bounds coordinates buffer out hd
        have hfr := ih outs' acc' hr
        simp [processTiles, hd, hr] at h
        obtain ⟨houts, -⟩ := h
        subst houts
        simp [processTiles, hfd, hfr]

theorem sortMarkers_sorted (l : List Marker) :
    (sortMarkers l).Pairwise markerLE :=
  List.sorted_insertionSort markerLE l

theorem sortMarkers_perm (l : List Marker) : (sortMarkers l).Perm l :=
  List.perm_insertionSort markerLE l

theorem dedupMarkers_sublist :
    ∀ (seen : List (Nat × Nat × Nat × Nat × List Nat)) (l : List Marker),
    List.Sublist (dedupMarkers seen l) l := by
  intro seen l
  induction l generalizing seen with
  | nil => simp [dedupMarkers]
  | cons m rest ih =>
    rw [dedupMarkers]
    split
    · exact (ih seen).cons m
    · exact (ih (markerKeyCI m :: seen)).cons₂ m

theorem dedupMarkers_not_mem_seen :
    ∀ (seen : List (Nat × Nat × Nat × Nat × List Nat)) (l : List Marker)
      (m : Marker), m ∈ dedupMarkers seen l → markerKeyCI m ∉ seen := by
  intro seen l
  induction l generalizing seen with
  | nil => intro m hm; simp [dedupMarkers] at hm
  | cons a rest ih =>
    intro m hm
    rw [dedupMarkers] at hm
    split at hm
    · exact ih seen m hm
    · rcases List.mem_cons.mp hm with h | h
      · subst h; assumption
      · intro hseen
        exact ih (markerKeyCI a :: seen) m h (List.mem_cons_of_mem _ hseen)

theorem dedupMarkers_pairwise_ne :
    ∀ (seen : List (Nat × Nat × Nat × Nat × List Nat)) (l : List Marker),
    (dedupMarkers seen l).Pairwise
      (fun a b => markerKeyCI a ≠ markerKeyCI b) := by
  intro seen l
  induction l generalizing seen with
  | nil => simp [dedupMarkers]
  | cons m rest ih =>
    rw [dedupMarkers]
    split
    · exact ih seen
    · refine List.Pairwise.cons ?_ (ih (markerKeyCI m :: seen))
      intro b hb
      have := dedupMarkers_not_mem_seen (markerKeyCI m :: seen) rest b hb
      intro he
      exact this (by rw [← he]; exact List.mem_cons_self _ _)

/-! ### Characterisation of the marker codec -/

theorem parseRecord_inv (buffer : List Nat) (floor index : Nat) (m : Marker)
    (j : Nat) (h : parseRecord buffer floor index = .ok (m, j)) :
    index + 14 ≤ buffer.length ∧
    m = ⟨buffer.getD (index + 1) 0 * 256 + buffer.getD index 0,
         buffer.getD (index + 5) 0 * 256 + buffer.getD (index + 4) 0,
         floor, bytesLE buffer (index + 8) 4,
         (bufferSlice buffer (index + 14) (bytesLE buffer (index + 12) 2)).map
           win1252Byte⟩ ∧
    j = index + 14 + bytesLE buffer (index + 12) 2 := by
  simp only [parseRecord, readUInt8, readUIntLE] at h
  split_ifs at h with h1 h2 h3 h4 h5 h6
  all_goals simp_all

theorem parseRecord_ok_char (buffer : List Nat) (floor index : Nat)
    (hlen : index + 14 ≤ buffer.length) :
    parseRecord buffer floor index =
      .ok (⟨buffer.getD (index + 1) 0 * 256 + buffer.getD index 0,
            buffer.getD (index + 5) 0 * 256 + buffer.getD (index + 4) 0,
            floor, bytesLE buffer (index + 8) 4,
            (bufferSlice buffer (index + 14) (bytesLE buffer (index + 12) 2)).map
              win1252Byte⟩,
           index + 14 + bytesLE buffer (index + 12) 2) := by
  have c1 : index + 1 ≤ buffer.length := by omega
  have c2 : index + 1 + 1 ≤ buffer.length := by omega
  have c3 : index + 4 + 1 ≤ buffer.length := by omega
  have c4 : index + 5 + 1 ≤ buffer.length := by omega
  have c5 : index + 8 + 4 ≤ buffer.length := by omega
  have c6 : index + 12 + 2 ≤ buffer.length := by omega
  simp [parseRecord, readUInt8, readUIntLE, c1, c2, c3, c4, c5, c6]

theorem parseRecord_no_ok_of_truncated (buffer : List Nat) (floor index : Nat)
    (hlen : index + 14 > buffer.length) :
    isOkE (parseRecord buffer floor index) = false := by
  simp only [parseRecord, readUInt8, readUIntLE]
  split_ifs <;> first
    | omega
    | simp [isOkE]

theorem parseRecordsAux_inv (buffer : List Nat) (floor : Nat) :
    ∀ (n index : Nat) (l : List Marker) (e : Nat),
    parseRecordsAux buffer floor n index = .ok (l, e) →
    l.length = n ∧ index ≤ e ∧ ∀ m ∈ l, m.z = floor := by
  intro n
  induction n with
  | zero =>
    intro index l e h
    simp [parseRecordsAux] at h
    obtain ⟨rfl, rfl⟩ := h
    simp
  | succ k ih =>
    intro index l e h
    cases hr : parseRecord buffer floor index with
    | error err => simp [parseRecordsAux, hr] at h
    | ok p =>
      obtain ⟨m, j⟩ := p
      cases hrec : parseRecordsAux buffer floor k j with
      | error err => simp [parseRecordsAux, hr, hrec] at h
      | ok q =>
        obtain ⟨l', e'⟩ := q
        obtain ⟨hlen, hm, hj⟩ := parseRecord_inv buffer floor index m j hr
        obtain ⟨ihl, ihle, ihz⟩ := ih j l' e' hrec
        simp [parseRecordsAux, hr, hrec] at h
        obtain ⟨hl, he⟩ := h
        refine ⟨?_, by omega, ?_⟩
        · rw [← hl]; simp [ihl]
        · intro m' hm'
          rw [← hl] at hm'
          rcases List.mem_cons.mp hm' with h' | h'
          · subst h'; rw [hm]
          · exact ihz m' h'

theorem bytesLE_agree (b1 b2 : List Nat) :
    ∀ (n i : Nat), (∀ k, k < n → b1.getD (i + k) 0 = b2.getD (i + k) 0) →
    bytesLE b1 i n = bytesLE b2 i n := by
  intro n
  induction n with
  | zero => intro i _; simp [bytesLE]
  | succ k ih =>
    intro i h
    rw [bytesLE, bytesLE]
    have h0 : b1.getD i 0 = b2.getD i 0 := by simpa using h 0 (Nat.succ_pos _)
    have hrest := ih (i + 1) (fun k' hk' => by
      have e : i + 1 + k' = i + (k' + 1) := by omega
      rw [e]; exact h (k' + 1) (by omega))
    rw [h0, hrest]

theorem readUIntLE_ok_len (buffer : List Nat) (i n v : Nat)
    (h : readUIntLE buffer i n = .ok v) :
    i + n ≤ buffer.length ∧ v = bytesLE buffer i n := by
  rw [readUIntLE] at h
  split_ifs at h with hc
  exact ⟨hc, (Except.ok.inj h).symm⟩

theorem readUIntLE_append (buffer extra : List Nat) (i n : Nat)
    (h : i + n ≤ buffer.length) :
    readUIntLE (buffer ++ extra) i n = readUIntLE buffer i n := by
  rw [readUIntLE, readUIntLE]
  have h2 : i + n ≤ (buffer ++ extra).length := by simp; omega
  rw [if_pos h2, if_pos h]
  have := bytesLE_agree (buffer ++ extra) buffer n i
    (fun k hk => List.getD_append buffer extra 0 (i + k) (by omega))
  rw [this]

theorem bufferSlice_append (buffer extra : List Nat) (a n : Nat)
    (h : a + n ≤ buffer.length) :
    bufferSlice (buffer ++ extra) a n = bufferSlice buffer a n := by
  rw [bufferSlice, bufferSlice]
  rw [List.drop_append_of_le_length (by omega)]
  rw [List.take_append_of_le_length (by simp [List.length_drop]; omega)]

theorem parseRecord_append (buffer extra : List Nat) (floor index : Nat)
    (m : Marker) (j : Nat)
    (h : parseRecord buffer floor index = .ok (m, j)) (hj : j ≤ buffer.length) :
    parseRecord (buffer ++ extra) floor index = .ok (m, j) := by
  obtain ⟨hlen, hm, hjj⟩ := parseRecord_inv buffer floor index m j h
  have hL : index + 14 + bytesLE buffer (index + 12) 2 ≤ buffer.length := by omega
  have hchar := parseRecord_ok_char (buffer ++ extra) floor index
    (by simp; omega)
  have g1 : (buffer ++ extra).getD index 0 = buffer.getD index 0 :=
    List.getD_append buffer extra 0 index (by omega)
  have g2 : (buffer ++ extra).getD (index + 1) 0 = buffer.getD (index + 1) 0 :=
    List.getD_append buffer extra 0 (index + 1) (by omega)
  have g3 : (buffer ++ extra).getD (index + 4) 0 = buffer.getD (index + 4) 0 :=
    List.getD_append buffer extra 0 (index + 4) (by omega)
  have g4 : (buffer ++ extra).getD (index + 5) 0 = buffer.getD (index + 5) 0 :=
    List.getD_append buffer extra 0 (index + 5) (by omega)
  have g5 : bytesLE (buffer ++ extra) (index + 8) 4 = bytesLE buffer (index + 8) 4 :=
    bytesLE_agree _ _ 4 (index + 8)
      (fun k hk => List.getD_append buffer extra 0 (index + 8 + k) (by omega))
  have g6 : bytesLE (buffer ++ extra) (index + 12) 2 = bytesLE buffer (index + 12) 2 :=
    bytesLE_agree _ _ 2 (index + 12)
      (fun k hk => List.getD_append buffer extra 0 (index + 12 + k) (by omega))
  have g7 : bufferSlice (buffer ++ extra) (index + 14) (bytesLE buffer (index + 12) 2) =
      bufferSlice buffer (index + 14) (bytesLE buffer (index + 12) 2) :=
    bufferSlice_append buffer extra (index + 14) _ (by omega)
  rw [hchar, g1, g2, g3, g4, g5, g6, g7, ← hm, ← hjj]

theorem parseRecordsAux_append (buffer extra : List Nat) (floor : Nat) :
    ∀ (n index : Nat) (l : List Marker) (e : Nat),
    parseRecordsAux buffer floor n index = .ok (l, e) → e ≤ buffer.length →
    parseRecordsAux (buffer ++ extra) floor n index = .ok (l, e) := by
  intro n
  induction n with
  | zero =>
    intro index l e h _
    simp [parseRecordsAux] at h
    obtain ⟨rfl, rfl⟩ := h
    simp [parseRecordsAux]
  | succ k ih =>
    intro index l e h he
    cases hr : parseRecord buffer floor index with
    | error err => simp [parseRecordsAux, hr] at h
    | ok p =>
      obtain ⟨m, j⟩ := p
      cases hrec : parseRecordsAux buffer floor k j with
      | error err => simp [parseRecordsAux, hr, hrec] at h
      | ok q =>
        obtain ⟨l', e'⟩ := q
        obtain ⟨-, hje, -⟩ := parseRecordsAux_inv buffer floor k j l' e' hrec
        simp [parseRecordsAux, hr, hrec] at h
        obtain ⟨hl, heq⟩ := h
        have he' : e' ≤ buffer.length := by omega
        have hr' := parseRecord_append buffer extra floor index m j hr (by omega)
        have hrec' := ih j l' e' hrec he'
        simp [parseRecordsAux, hr', hrec', hl, heq]

theorem parseMarkerData_append (buffer extra : List Nat) (floor count : Nat)
    (l : List Marker) (e : Nat)
    (hc : readUIntLE buffer 0 4 = .ok count) (hn : count ≠ 0)
    (hp : parseRecordsAux buffer floor count 4 = .ok (l, e))
    (he : e ≤ buffer.length) :
    parseMarkerData (buffer ++ extra) floor = parseMarkerData buffer floor := by
  obtain ⟨hlen4, -⟩ := readUIntLE_ok_len buffer 0 4 count hc
  have hc' : readUIntLE (buffer ++ extra) 0 4 = .ok count := by
    rw [readUIntLE_append buffer extra 0 4 (by omega), hc]
  have hp' := parseRecordsAux_append buffer extra floor count 4 l e hp he
  simp [parseMarkerData, hc, hc', hn, hp, hp']

theorem parseMarkerData_sorted (buffer : List Nat) (floor : Nat)
    (l : List Marker) (h : parseMarkerData buffer floor = .ok l) :
    l.Pairwise markerLE := by
  cases hc : readUIntLE buffer 0 4 with
  | error e => simp [parseMarkerData, hc] at h
  | ok count =>
    by_cases hz : count = 0
    · simp [parseMarkerData, hc, hz] at h
      subst h
      exact List.Pairwise.nil
    · cases hp : parseRecordsAux buffer floor count 4 with
      | error e => simp [parseMarkerData, hc, hz, hp] at h
      | ok q =>
        obtain ⟨records, e⟩ := q
        simp [parseMarkerData, hc, hz, hp] at h
        subst h
        exact (sortMarkers_sorted records).sublist
          (dedupMarkers_sublist [] (sortMarkers records))

theorem parseMarkerData_nodup (buffer : List Nat) (floor : Nat)
    (l : List Marker) (h : parseMarkerData buffer floor = .ok l) :
    l.Pairwise (fun a b => markerKeyCI a ≠ markerKeyCI b) := by
  cases hc : readUIntLE buffer 0 4 with
  | error e => simp [parseMarkerData, hc] at h
  | ok count =>
    by_cases hz : count = 0
    · simp [parseMarkerData, hc, hz] at h
      subst h
      exact List.Pairwise.nil
    · cases hp : parseRecordsAux buffer floor count 4 with
      | error e => simp [parseMarkerData, hc, hz, hp] at h
      | ok q =>
        obtain ⟨records, e⟩ := q
        simp [parseMarkerData, hc, hz, hp] at h
        subst h
        exact dedupMarkers_pairwise_ne [] (sortMarkers records)

theorem reservedAux_lb (buffer : List Nat) :
    ∀ (n i p : Nat), p ∈ reservedAux buffer n i → i + 2 ≤ p := by
  intro n
  induction n with
  | zero => intro i p hp; simp [reservedAux] at hp
  | succ k ih =>
    intro i p hp
    rw [reservedAux] at hp
    simp only [List.mem_cons] at hp
    rcases hp with rfl | rfl | rfl | rfl | hp
    · omega
    · omega
    · omega
    · omega
    · have := ih (i + 14 + bytesLE buffer (i + 12) 2) p hp
      omega

theorem getElem?_eq_of_getD (b1 b2 : List Nat) (j : Nat)
    (hlen : b1.length = b2.length) (h : b1.getD j 0 = b2.getD j 0) :
    b1[j]? = b2[j]? := by
  by_cases hj : j < b1.length
  · rw [List.getElem?_eq_getElem hj, List.getElem?_eq_getElem (hlen ▸ hj)]
    rw [List.getD_eq_getElem b1 0 hj, List.getD_eq_getElem b2 0 (hlen ▸ hj)] at h
    rw [h]
  · rw [List.getElem?_eq_none (by omega), List.getElem?_eq_none (by omega)]

theorem bufferSlice_getElem? (b : List Nat) (a n k : Nat) :
    (bufferSlice b a n)[k]? = if k < n then b[a + k]? else none := by
  rw [bufferSlice]
  by_cases hk : k < n
  · rw [if_pos hk, List.getElem?_take_of_lt hk]
    simp [List.getElem?_drop]
  · rw [if_neg hk]
    apply List.getElem?_eq_none
    have := List.length_take n (b.drop a)
    omega

theorem bufferSlice_agree (b1 b2 : List Nat) (a n : Nat)
    (hlen : b1.length = b2.length)
    (h : ∀ k, k < n → b1.getD (a + k) 0 = b2.getD (a + k) 0) :
    bufferSlice b1 a n = bufferSlice b2 a n := by
  refine List.ext_getElem? fun k => ?_
  rw [bufferSlice_getElem?, bufferSlice_getElem?]
  by_cases hk : k < n
  · rw [if_pos hk, if_pos hk]
    exact getElem?_eq_of_getD b1 b2 (a + k) hlen (h k hk)
  · rw [if_neg hk, if_neg hk]

theorem parseRecord_agree (b1 b2 : List Nat) (floor i : Nat)
    (hlen : b1.length = b2.length)
    (hag : ∀ j, i ≤ j → j ≠ i + 2 → j ≠ i + 3 → j ≠ i + 6 → j ≠ i + 7 →
      j < i + 14 + bytesLE b1 (i + 12) 2 → b1.getD j 0 = b2.getD j 0) :
    parseRecord b1 floor i = parseRecord b2 floor i := by
  have eL : bytesLE b1 (i + 12) 2 = bytesLE b2 (i + 12) 2 :=
    bytesLE_agree b1 b2 2 (i + 12) (fun k hk =>
      hag (i + 12 + k) (by omega) (by omega) (by omega) (by omega) (by omega)
        (by omega))
  have e0 : b1.getD i 0 = b2.getD i 0 :=
    hag i le_rfl (by omega) (by omega) (by omega) (by omega) (by omega)
  have e1 : b1.getD (i + 1) 0 = b2.getD (i + 1) 0 :=
    hag (i + 1) (by omega) (by omega) (by omega) (by omega) (by omega) (by omega)
  have e4 : b1.getD (i + 4) 0 = b2.getD (i + 4) 0 :=
    hag (i + 4) (by omega) (by omega) (by omega) (by omega) (by omega) (by omega)
  have e5 : b1.getD (i + 5) 0 = b2.getD (i + 5) 0 :=
    hag (i + 5) (by omega) (by omega) (by omega) (by omega) (by omega) (by omega)
  have eIcon : bytesLE b1 (i + 8) 4 = bytesLE b2 (i + 8) 4 :=
    bytesLE_agree b1 b2 4 (i + 8) (fun k hk =>
      hag (i + 8 + k) (by omega) (by omega) (by omega) (by omega) (by omega)
        (by omega))
  have eSlice : bufferSlice b1 (i + 14) (bytesLE b1 (i + 12) 2) =
      bufferSlice b2 (i + 14) (bytesLE b1 (i + 12) 2) :=
    bufferSlice_agree b1 b2 (i + 14) (bytesLE b1 (i + 12) 2) hlen (fun k hk =>
      hag (i + 14 + k) (by omega) (by omega) (by omega) (by omega) (by omega)
        (by omega))
  by_cases hlen14 : i + 14 ≤ b1.length
  · rw [parseRecord_ok_char b1 floor i hlen14,
       parseRecord_ok_char b2 floor i (hlen ▸ hlen14)]
    rw [e0, e1, e4, e5, eIcon, eSlice, eL]
  · have hlen14' : ¬(i + 14 ≤ b2.length) := by omega
    simp only [parseRecord, readUInt8, readUIntLE, hlen]
    split_ifs with h1 h2 h3 h4 h5 h6
    all_goals rfl

theorem parseRecordsAux_agree (b1 b2 : List Nat) (floor : Nat)
    (hlen : b1.length = b2.length) :
    ∀ (n i : Nat),
    (∀ j, i ≤ j → j ∉ reservedAux b1 n i → b1.getD j 0 = b2.getD j 0) →
    parseRecordsAux b1 floor n i = parseRecordsAux b2 floor n i := by
  intro n
  induction n with
  | zero => intro i _; simp [parseRecordsAux]
  | succ cnt ih =>
    intro i hag
    have hnotres : ∀ j, i ≤ j → j ≠ i + 2 → j ≠ i + 3 → j ≠ i + 6 → j ≠ i + 7 →
        j < i + 14 + bytesLE b1 (i + 12) 2 → j ∉ reservedAux b1 (cnt + 1) i := by
      intro j hj hj2 hj3 hj6 hj7 hjlt
      rw [reservedAux]
      simp only [List.mem_cons]
      push_neg
      refine ⟨hj2, hj3, hj6, hj7, fun hmem => ?_⟩
      have := reservedAux_lb b1 cnt (i + 14 + bytesLE b1 (i + 12) 2) j hmem
      omega
    have hrec_eq : parseRecord b1 floor i = parseRecord b2 floor i := by
      apply parseRecord_agree b1 b2 floor i hlen
      intro j hj hj2 hj3 hj6 hj7 hjlt
      exact hag j hj (hnotres j hj hj2 hj3 hj6 hj7 hjlt)
    have eL : bytesLE b1 (i + 12) 2 = bytesLE b2 (i + 12) 2 :=
      bytesLE_agree b1 b2 2 (i + 12) (fun k hk =>
        hag (i + 12 + k) (by omega)
          (hnotres (i + 12 + k) (by omega) (by omega) (by omega) (by omega)
            (by omega) (by omega)))
    cases hr : parseRecord b2 floor i with
    | error e => simp [parseRecordsAux, hrec_eq, hr]
    | ok p =>
      obtain ⟨m, j⟩ := p
      obtain ⟨hlen14, hm, hj⟩ := parseRecord_inv b2 floor i m j hr
      have hjrw : i + 14 + bytesLE b1 (i + 12) 2 = j := by rw [eL, hj]
      have hrec2 : parseRecordsAux b1 floor cnt j = parseRecordsAux b2 floor cnt j := by
        apply ih j
        intro j' hj' hmem'
        refine hag j' (by omega) ?_
        rw [reservedAux]
        simp only [List.mem_cons]
        push_neg
        refine ⟨by omega, by omega, by omega, by omega, fun hmem => ?_⟩
        rw [hjrw] at hmem
        exact hmem' hmem
      simp [parseRecordsAux, hrec_eq, hr, hrec2]

theorem parseMarkerData_agree (b1 b2 : List Nat) (floor : Nat)
    (hlen : b1.length = b2.length)
    (hag : ∀ j, j < b1.length → j ∉ reservedOffsets b1 →
      b1.getD j 0 = b2.getD j 0) :
    parseMarkerData b1 floor = parseMarkerData b2 floor := by
  have hag' : ∀ j, j ∉ reservedOffsets b1 → b1.getD j 0 = b2.getD j 0 := by
    intro j hj
    by_cases hjl : j < b1.length
    · exact hag j hjl hj
    · rw [List.getD_eq_default _ _ (by omega), List.getD_eq_default _ _ (by omega)]
  have hcount : bytesLE b1 0 4 = bytesLE b2 0 4 :=
    bytesLE_agree b1 b2 4 0 (fun k hk =>
      hag' (0 + k) (fun hmem => by
        have := reservedAux_lb b1 (bytesLE b1 0 4) 4 (0 + k) hmem
        omega))
  have hread : readUIntLE b1 0 4 = readUIntLE b2 0 4 := by
    rw [readUIntLE, readUIntLE, hlen, hcount]
  cases hc : readUIntLE b2 0 4 with
  | error e => simp [parseMarkerData, hread, hc]
  | ok count =>
    obtain ⟨-, hcv⟩ := readUIntLE_ok_len b2 0 4 count hc
    by_cases hz : count = 0
    · simp [parseMarkerData, hread, hc, hz]
    · have hrecs := parseRecordsAux_agree b1 b2 floor hlen count 4
        (fun j hj hmem => hag' j (by
          rw [reservedOffsets, hcount, ← hcv]
          exact hmem))
      simp [parseMarkerData, hread, hc, hz, hrecs]

theorem jsLook_eq_of_getElem (palette : Nat → Option Color) (buffer : List Nat)
    (i b : Nat) (h : buffer[i]? = some b) : jsLook palette buffer i = palette b := by
  unfold jsLook jsIndex
  rw [h]

theorem c2visual_length : c2visual.length = 65536 := by
  rw [c2visual, List.length_cons, List.length_cons, List.length_replicate]

theorem c2tile_slice_map : bufferSlice c2tile 0 0x10000 = c2visual := by
  rw [bufferSlice, c2tile, List.drop_zero,
    show (0x10000 : Nat) = c2visual.length from c2visual_length.symm,
    List.take_left]

theorem c2tile_slice_path :
    bufferSlice c2tile 0x10000 0x10000 = List.replicate 65536 0x00 := by
  rw [bufferSlice, c2tile,
    show (0x10000 : Nat) = c2visual.length from c2visual_length.symm,
    List.drop_left, List.take_replicate, Nat.min_self]

theorem c2tile_drop : c2tile.drop 0x20000 = [] := by
  apply List.drop_eq_nil_of_le
  rw [c2tile, List.length_append, c2visual_length, List.length_replicate]

theorem markerlessTile_slice_map :
    bufferSlice markerlessTile 0 0x10000 = List.replicate 65536 0x00 := by
  rw [bufferSlice, markerlessTile, List.drop_zero, List.take_replicate,
    show (min 0x10000 131072 : Nat) = 65536 from by omega]

theorem markerlessTile_slice_path :
    bufferSlice markerlessTile 0x10000 0x10000 = List.replicate 65536 0x00 := by
  rw [bufferSlice, markerlessTile, List.drop_replicate,
    show (131072 - 0x10000 : Nat) = 65536 from by omega,
    List.take_replicate, Nat.min_self]

theorem markerlessTile_drop : markerlessTile.drop 0x20000 = [] := by
  apply List.drop_eq_nil_of_le
  rw [markerlessTile, List.length_replicate]

theorem zeroCountTile_slice_map :
    bufferSlice zeroCountTile 0 0x10000 = List.replicate 65536 0x00 := by
  rw [bufferSlice, zeroCountTile, List.drop_zero,
    List.take_append_of_le_length (by rw [List.length_replicate]; omega),
    List.take_replicate, show (min 0x10000 131072 : Nat) = 65536 from by omega]

theorem zeroCountTile_slice_path :
    bufferSlice zeroCountTile 0x10000 0x10000 = List.replicate 65536 0x00 := by
  rw [bufferSlice, zeroCountTile,
    List.drop_append_of_le_length (by rw [List.length_replicate]; omega),
    List.drop_replicate, show (131072 - 0x10000 : Nat) = 65536 from by omega,
    List.take_append_of_le_length (by rw [List.length_replicate]),
    List.take_replicate, Nat.min_self]

theorem zeroCountTile_drop : zeroCountTile.drop 0x20000 = [0, 0, 0, 0] := by
  rw [zeroCountTile,
    List.drop_append_of_le_length (by rw [List.length_replicate]),
    List.drop_replicate, show (131072 - 0x20000 : Nat) = 0 from by omega,
    List.replicate_zero, List.nil_append]

theorem mapLookup_replicate0 :
    ∀ k, k < 65536 → (jsLook mapPixelPalette (List.replicate 65536 0x00) k).isSome := by
  intro k hk
  rw [jsLook_eq_of_getElem mapPixelPalette _ k 0x00
    (by rw [List.getElem?_replicate, if_pos hk])]
  rfl

theorem pathLookup_replicate0 :
    ∀ k, k < 65536 → (jsLook pathPixelPalette (List.replicate 65536 0x00) k).isSome := by
  intro k hk
  rw [jsLook_eq_of_getElem pathPixelPalette _ k 0x00
    (by rw [List.getElem?_replicate, if_pos hk])]
  rfl

theorem mapLookup_c2visual :
    ∀ k, k < 65536 → (jsLook mapPixelPalette c2visual k).isSome := by
  intro k hk
  match k with
  | 0 =>
    rw [jsLook_eq_of_getElem mapPixelPalette c2visual 0 0x00 (by
      rw [show c2visual = 0x00 :: 0x18 :: List.replicate 65534 0x00 from rfl,
        List.getElem?_cons_zero])]
    rfl
  | 1 =>
    rw [jsLook_eq_of_getElem mapPixelPalette c2visual 1 0x18 (by
      rw [show c2visual = 0x00 :: 0x18 :: List.replicate 65534 0x00 from rfl,
        List.getElem?_cons_succ, List.getElem?_cons_zero])]
    rfl
  | k + 2 =>
    have hk' : k < 65534 := by omega
    rw [jsLook_eq_of_getElem mapPixelPalette c2visual (k + 2) 0x00 (by
      show c2visual[k + 2]? = some 0x00
      rw [show c2visual = 0x00 :: 0x18 :: List.replicate 65534 0x00 from rfl,
        List.getElem?_cons_succ, List.getElem?_cons_succ,
        List.getElem?_replicate, if_pos hk'])]
    rfl

theorem c2visual_look1 : jsLook mapPixelPalette c2visual 1 = some ⟨0, 204, 0⟩ := by
  rw [jsLook_eq_of_getElem mapPixelPalette c2visual 1 0x18 (by
    rw [show c2visual = 0x00 :: 0x18 :: List.replicate 65534 0x00 from rfl,
      List.getElem?_cons_succ, List.getElem?_cons_zero])]
  rfl

example :
    parseMarkerData
      [1, 0, 0, 0,
       5, 0, 0, 0, 6, 0, 0, 0, 9, 0, 0, 0, 2, 0, 65, 66] 7 =
    .ok [⟨5, 6, 7, 9, [65, 66]⟩] := by rfl

theorem markerlessTile_draw_false :
    drawMapSection bounds0 coords0 markerlessTile false = .ok c1out := by
  have h := drawMapSection_ok_false bounds0 coords0 markerlessTile
    (fun k hk => by rw [markerlessTile_slice_map]; exact mapLookup_replicate0 k hk)
    (fun k hk => by rw [markerlessTile_slice_path]; exact pathLookup_replicate0 k hk)
  rw [markerlessTile_slice_map, markerlessTile_slice_path, markerlessTile_drop] at h
  exact h

theorem c2tile_draw_false :
    drawMapSection bounds0 coords0 c2tile false = .ok c2out := by
  have h := drawMapSection_ok_false bounds0 coords0 c2tile
    (fun k hk => by rw [c2tile_slice_map]; exact mapLookup_c2visual k hk)
    (fun k hk => by rw [c2tile_slice_path]; exact pathLookup_replicate0 k hk)
  rw [c2tile_slice_map, c2tile_slice_path, c2tile_drop] at h
  exact h

theorem zeroCountTile_marker_ok :
    parseMarkerData (zeroCountTile.drop 0x20000) coords0.z = .ok [] := by
  rw [zeroCountTile_drop]
  rfl

theorem zeroCountTile_draw_true :
    drawMapSection bounds0 coords0 zeroCountTile true = .ok c9out := by
  have h := drawMapSection_ok_true bounds0 coords0 zeroCountTile []
    (fun k hk => by rw [zeroCountTile_slice_map]; exact mapLookup_replicate0 k hk)
    (fun k hk => by rw [zeroCountTile_slice_path]; exact pathLookup_replicate0 k hk)
    zeroCountTile_marker_ok
  rw [zeroCountTile_slice_map, zeroCountTile_slice_path, zeroCountTile_drop] at h
  exact h

theorem processTiles_singleton (bounds : Bounds) (coordinates : Coords)
    (buffer : List Nat) (flag : Bool) (out : TileOutput)
    (h : drawMapSection bounds coordinates buffer flag = .ok out)
    (hm : out.markers = some [] ∨ out.markers = none) :
    processTiles bounds [(coordinates, buffer)] flag = .ok ([out], []) := by
  rcases hm with hm | hm <;> simp [processTiles, h, hm]

theorem zeroCountTile_processTiles :
    processTiles bounds0 [(coords0, zeroCountTile)] true = .ok ([c9out], []) :=
  processTiles_singleton bounds0 coords0 zeroCountTile true c9out
    zeroCountTile_draw_true (Or.inl rfl)

theorem c2ops_elem1 :
    (tileLayerOps mapPixelPalette bounds0 coords0 c2visual)[1]? =
      some (0, 1, ⟨0, 204, 0⟩) := by
  rw [tileLayerOps, List.getElem?_map, List.getElem?_range (by norm_num : (1 : Nat) < 65536)]
  simp [layerColorAt, c2visual_look1, bounds0, coords0]

attribute [irreducible] tileLayerOps

/-! ### The claims -/

/-- Claim C1. The spec says a tile whose marker block is empty (zero bytes
after the 0x20000 offset) decodes to zero markers, is reported as a
warning, and is never fatal.  The code does print the warning (the
`emptyMarkerWarning` flag of the markers-excluded run is `true`, and the
markers-excluded run succeeds), but `parseMarkerData` unconditionally
reads the 4 count bytes, so on an empty block it throws the bounds
`RangeError` of `readUIntLE` and the markers-included processing of the
tile fails instead of yielding an empty marker list. -/
theorem C1_empty_marker_block :
    parseMarkerData ([] : List Nat) 7 = .error "Index out of range" ∧
    markerlessTile.drop 0x20000 = [] ∧
    drawMapSection bounds0 coords0 markerlessTile false = .ok c1out ∧
    c1out.emptyMarkerWarning = true ∧
    isOkE (drawMapSection bounds0 coords0 markerlessTile true) = false := by
  refine ⟨rfl, markerlessTile_drop, markerlessTile_draw_false, rfl, ?_⟩
  exact drawMapSection_marker_error bounds0 coords0 markerlessTile
    (by rw [markerlessTile_drop]; rfl)

/-- Claim C2 (amended). When every byte of both 65536-byte layers is in
its palette, `drawMapSection` without markers succeeds and places byte `k`
of each layer at floor-raster pixel column `(x − xMin)*256 + k / 256` and
row `(y − yMin)*256 + k % 256` — i.e. the layers are interpreted
column-major (the outer loop variable `xIndex` is the pixel column and
advances once per 256 bytes), not row-major as the claim states. -/
theorem C2_layer_render_geometry (bounds : Bounds) (coordinates : Coords)
    (buffer : List Nat)
    (hm : ∀ k, k < 65536 →
      (jsLook mapPixelPalette (bufferSlice buffer 0 0x10000) k).isSome)
    (hp : ∀ k, k < 65536 →
      (jsLook pathPixelPalette (bufferSlice buffer 0x10000 0x10000) k).isSome) :
    drawMapSection bounds coordinates buffer false =
      .ok ⟨tileLayerOps mapPixelPalette bounds coordinates
             (bufferSlice buffer 0 0x10000),
           tileLayerOps pathPixelPalette bounds coordinates
             (bufferSlice buffer 0x10000 0x10000),
           (buffer.drop 0x20000).length == 0, none⟩ :=
  drawMapSection_ok_false bounds coordinates buffer hm hp

/-- Claim C2, witness: the amended theorem applied to the concrete tile
`c2tile`. -/
theorem C2_layer_render_geometry_witness :
    drawMapSection bounds0 coords0 c2tile false =
      .ok ⟨tileLayerOps mapPixelPalette bounds0 coords0
             (bufferSlice c2tile 0 0x10000),
           tileLayerOps pathPixelPalette bounds0 coords0
             (bufferSlice c2tile 0x10000 0x10000),
           (c2tile.drop 0x20000).length == 0, none⟩ :=
  C2_layer_render_geometry bounds0 coords0 c2tile
    (fun k hk => by rw [c2tile_slice_map]; exact mapLookup_c2visual k hk)
    (fun k hk => by rw [c2tile_slice_path]; exact pathLookup_replicate0 k hk)

/-- Claim C2, counterexample to the claim as stated: in the tile at the
bounds origin, visual-layer byte 1 (the grass byte 0x18 of `c2visual`) is
rendered at floor pixel `(0, 1)` — column `1 / 256 = 0`, row
`1 % 256 = 1` — and not at `(1, 0)` as the row-major claim
(column `i % 256 = 1`, row `i / 256 = 0`) requires. -/
theorem C2_row_major_counterexample :
    drawMapSection bounds0 coords0 c2tile false = .ok c2out ∧
    c2out.mapOps = tileLayerOps mapPixelPalette bounds0 coords0 c2visual ∧
    (tileLayerOps mapPixelPalette bounds0 coords0 c2visual)[1]? =
      some (0, 1, ⟨0, 204, 0⟩) ∧
    ((0 : Int), (1 : Int), Color.mk 0 204 0) ≠
      ((1 : Int), (0 : Int), Color.mk 0 204 0) := by
  constructor
  · exact c2tile_draw_false
  constructor
  · rfl
  constructor
  · exact c2ops_elem1
  · decide

/-- Claim C3. For a well-formed marker block (the count read succeeds, is
non-zero, the records parse, and the final offset lies inside the
buffer): exactly `count` records are decoded, every decoded marker carries
the caller's floor as its `z`, bytes after the last record do not affect
the decode, and each record's marker has `x = xTile*256 + xOffset` and
`y = yTile*256 + yOffset`. -/
theorem C3_record_decoding (buffer extra : List Nat) (floor count : Nat)
    (records : List Marker) (endIndex : Nat)
    (hc : readUIntLE buffer 0 4 = .ok count) (hn : count ≠ 0)
    (hp : parseRecordsAux buffer floor count 4 = .ok (records, endIndex))
    (hend : endIndex ≤ buffer.length) :
    records.length = count ∧
    (∀ m ∈ records, m.z = floor) ∧
    (∀ i m j, parseRecord buffer floor i = .ok (m, j) →
      m.x = buffer.getD (i + 1) 0 * 256 + buffer.getD i 0 ∧
      m.y = buffer.getD (i + 5) 0 * 256 + buffer.getD (i + 4) 0 ∧
      m.z = floor) ∧
    parseMarkerData (buffer ++ extra) floor = parseMarkerData buffer floor := by
  obtain ⟨hl, -, hz⟩ := parseRecordsAux_inv buffer floor count 4 records endIndex hp
  refine ⟨hl, hz, ?_, parseMarkerData_append buffer extra floor count records
    endIndex hc hn hp hend⟩
  intro i m j hr
  obtain ⟨-, hm, -⟩ := parseRecord_inv buffer floor i m j hr
  rw [hm]
  exact ⟨rfl, rfl, rfl⟩

/-- Claim C3, witness: the single-record block `c3block`, with a spare
byte appended. -/
theorem C3_record_decoding_witness :
    [c3marker].length = 1 ∧
    c3marker.z = 7 ∧
    parseMarkerData (c3block ++ [0xAB]) 7 = parseMarkerData c3block 7 ∧
    (c3marker.x = c3block.getD 5 0 * 256 + c3block.getD 4 0 ∧
     c3marker.y = c3block.getD 9 0 * 256 + c3block.getD 8 0 ∧
     c3marker.z = 7) := by
  have h := C3_record_decoding c3block [0xAB] 7 1 [c3marker] 20 rfl
    (by decide) rfl (by decide)
  exact ⟨h.1, h.2.1 c3marker (List.mem_singleton.mpr rfl), h.2.2.2,
    h.2.2.1 4 c3marker 20 rfl⟩

/-- Claim C4. Every successfully decoded marker list is sorted ascending
by the key `x * 100000 + y` (the comparator of `markers.sort`). -/
theorem C4_marker_ordering (buffer : List Nat) (floor : Nat)
    (l : List Marker) (h : parseMarkerData buffer floor = .ok l) :
    l.Pairwise markerLE :=
  parseMarkerData_sorted buffer floor l h

/-- Claim C4, witness: the block with markers at (10,20), (5,5), (10,10)
decodes in the order (5,5), (10,10), (10,20), and that order is sorted by
the key. -/
theorem C4_marker_ordering_witness :
    parseMarkerData c4block 7 = .ok c4sorted ∧ c4sorted.Pairwise markerLE :=
  ⟨rfl, C4_marker_ordering c4block 7 c4sorted rfl⟩

/-- Claim C5. In every successfully decoded marker list no two entries are
structurally identical up to description case: the lowercased
serialization key (x, y, z, icon, lowercased description) is pairwise
distinct, so duplicate records collapse to a single entry. -/
theorem C5_marker_dedup (buffer : List Nat) (floor : Nat)
    (l : List Marker) (h : parseMarkerData buffer floor = .ok l) :
    l.Pairwise (fun a b => markerKeyCI a ≠ markerKeyCI b) :=
  parseMarkerData_nodup buffer floor l h

/-- Claim C5, witness: a block with two records identical except for the
description case (`AB` vs `ab`) decodes to a single entry. -/
theorem C5_marker_dedup_witness :
    parseMarkerData c5block 7 = .ok [⟨5, 6, 7, 9, [65, 66]⟩] ∧
    List.Pairwise (fun a b => markerKeyCI a ≠ markerKeyCI b)
      [(⟨5, 6, 7, 9, [65, 66]⟩ : Marker)] :=
  ⟨rfl, C5_marker_dedup c5block 7 [⟨5, 6, 7, 9, [65, 66]⟩] rfl⟩

/-- Claim C6. The pathfinding palette is total over bytes 0–255: byte 0xFA
maps to {250,250,250}, byte 0xFF maps to the reserved non-walkable color,
which is the stairs/ladders color {255,255,0} of the visual table's byte
0xD2, and every other byte maps to the grayscale {b,b,b}. -/
theorem C6_path_palette_total (b : Nat) (hb : b < 256) :
    (pathPixelPalette b).isSome ∧
    pathPixelPalette 0xFA = some ⟨250, 250, 250⟩ ∧
    pathPixelPalette 0xFF = some nonWalkablePath ∧
    nonWalkablePath = ⟨255, 255, 0⟩ ∧
    colorsByByte 0xD2 = some nonWalkablePath ∧
    (b ≠ 0xFA → b ≠ 0xFF → pathPixelPalette b = some ⟨b, b, b⟩) := by
  refine ⟨?_, by decide, by decide, by decide, by decide, ?_⟩
  · simp [pathPixelPalette, hb]
  · intro h1 h2
    simp [pathPixelPalette, hb, unexploredPathByte, nonWalkablePathByte, h1, h2]

/-- Claim C6, witness: the theorem at byte 0x33. -/
theorem C6_path_palette_total_witness :
    (pathPixelPalette 0x33).isSome ∧
    pathPixelPalette 0xFA = some ⟨250, 250, 250⟩ ∧
    pathPixelPalette 0xFF = some nonWalkablePath ∧
    nonWalkablePath = ⟨255, 255, 0⟩ ∧
    colorsByByte 0xD2 = some nonWalkablePath ∧
    ((0x33 : Nat) ≠ 0xFA → (0x33 : Nat) ≠ 0xFF →
      pathPixelPalette 0x33 = some ⟨0x33, 0x33, 0x33⟩) :=
  C6_path_palette_total 0x33 (by decide)

/-- Claim C7 (amended). A visual-layer byte with no palette entry is fatal
to that tile's render, not a warning-and-continue: if any of the 65536
lookups misses, `renderMap` (the visual instance of `renderLayer`) does
not return a rendered tile — `console.assert` reports the unknown color id
and then the render aborts (on classic Node the assertion throws; on later
Node `putImageData` rejects the `undefined` palette entry), so the
remaining positions are not processed. -/
theorem C7_unknown_visual_byte (buffer : List Nat) (k : Nat)
    (hk : k < 65536) (hmiss : jsLook mapPixelPalette buffer k = none) :
    isOkE (renderLayer mapPixelPalette buffer) = false := by
  cases hren : renderLayer mapPixelPalette buffer with
  | error e => rfl
  | ok r =>
    have hs := renderLayer_lookups mapPixelPalette buffer r hren k hk
    rw [hmiss] at hs
    simp at hs

/-- Claim C7, witness: the amended theorem at the layer whose byte 0 is
the unknown value 0x01. -/
theorem C7_unknown_visual_byte_witness :
    isOkE (renderLayer mapPixelPalette unknownByteVisual) = false :=
  C7_unknown_visual_byte unknownByteVisual 0 (by norm_num) (by
    rw [jsLook_eq_of_getElem mapPixelPalette unknownByteVisual 0 0x01 (by
      rw [show unknownByteVisual = 0x01 :: List.replicate 65535 0x00 from rfl,
        List.getElem?_cons_zero])]
    rfl)

/-- Claim C7, counterexample to the claim as stated: rendering a visual
layer that contains the unknown byte 0x01 produces the `Unknown color ID`
failure rather than a non-fatal warning plus a fully rendered tile, so the
unknown byte does abort the remaining positions. -/
theorem C7_nonfatal_counterexample :
    renderLayer mapPixelPalette unknownByteVisual = .error "Unknown color ID" := by
  have hlook : jsLook mapPixelPalette unknownByteVisual 0 = none := by
    rw [jsLook_eq_of_getElem mapPixelPalette unknownByteVisual 0 0x01 (by
      rw [show unknownByteVisual = 0x01 :: List.replicate 65535 0x00 from rfl,
        List.getElem?_cons_zero])]
    rfl
  have hcol : renderLayerCol mapPixelPalette unknownByteVisual 0 0 0 256 =
      .error "Unknown color ID" := by
    rw [show (256 : Nat) = 255 + 1 from rfl, renderLayerCol, hlook]
  have hall : renderLayerAll mapPixelPalette unknownByteVisual 0 0 256 =
      .error "Unknown color ID" := by
    rw [show (256 : Nat) = 255 + 1 from rfl, renderLayerAll, hcol]
  rw [renderLayer, hall]
  rfl

/-- Claim C8 (amended). A marker record whose fixed 14-byte portion
extends past the buffer makes `parseRecord` fail with the bounds
`RangeError` (no marker is silently produced), and a failing marker decode
makes the whole markers-included tile processing fail — the error
propagates out of `drawMapSection`; there is no catch that drops the
tile's markers and continues.  (A shortfall confined to the description
bytes, by contrast, is silently clamped — see the counterexample.) -/
theorem C8_truncated_marker_block (buffer : List Nat) (floor i : Nat)
    (bounds : Bounds) (coordinates : Coords) :
    (i + 14 > buffer.length → isOkE (parseRecord buffer floor i) = false) ∧
    (isOkE (parseMarkerData (buffer.drop 0x20000) coordinates.z) = false →
      isOkE (drawMapSection bounds coordinates buffer true) = false) :=
  ⟨fun hl => parseRecord_no_ok_of_truncated buffer floor i hl,
   fun hmk => drawMapSection_marker_error bounds coordinates buffer hmk⟩

/-- Claim C8, witness: a record starting at offset 0 of an empty buffer
fails, and the tile whose marker block fails to decode is itself not
processed successfully. -/
theorem C8_truncated_marker_block_witness :
    isOkE (parseRecord ([] : List Nat) 7 0) = false ∧
    isOkE (drawMapSection bounds0 coords0 markerlessTile true) = false := by
  refine ⟨(C8_truncated_marker_block [] 7 0 bounds0 coords0).1 (by decide),
    (C8_truncated_marker_block markerlessTile 7 0 bounds0 coords0).2 ?_⟩
  rw [markerlessTile_drop]
  rfl

/-- Claim C8, counterexample to the claim as stated: `c8block` declares a
count whose records need 23 bytes while the buffer has only 20, yet
decoding succeeds with a silently truncated 2-character description,
because the description is read with a clamping `slice` — no
`TruncatedMarkerBlock` error is raised. -/
theorem C8_silent_truncation_counterexample :
    c8block.length < 4 + 14 + 5 ∧
    parseMarkerData c8block 7 = .ok [⟨5, 6, 7, 9, [65, 66]⟩] :=
  ⟨by decide, rfl⟩

/-- Claim C9 (amended). For every run whose markers-included pass
succeeds, toggling the marker flag off changes only marker processing:
the per-tile raster outputs and warnings are unchanged (only the decoded
marker lists are dropped), no per-tile marker list is accumulated and the
per-floor marker JSON is empty. -/
theorem C9_marker_flag (bounds : Bounds) (tiles : List (Coords × List Nat))
    (outs : List TileOutput) (acc : List (Coords × List Marker))
    (h : processTiles bounds tiles true = .ok (outs, acc)) :
    processTiles bounds tiles false =
      .ok (outs.map (fun o => ⟨o.mapOps, o.pathOps, o.emptyMarkerWarning, none⟩),
        []) ∧
    floorMarkersJSON false acc = [] :=
  ⟨processTiles_true_false bounds tiles outs acc h, rfl⟩

/-- Claim C9, witness: the amended theorem on the one-tile floor
`[(coords0, zeroCountTile)]`. -/
theorem C9_marker_flag_witness :
    processTiles bounds0 [(coords0, zeroCountTile)] false =
      .ok ([⟨c9out.mapOps, c9out.pathOps, c9out.emptyMarkerWarning, none⟩], []) ∧
    floorMarkersJSON false [] = [] :=
  C9_marker_flag bounds0 [(coords0, zeroCountTile)] [c9out] []
    zeroCountTile_processTiles

/-- Claim C9, counterexample to the claim as stated: for the tile
`markerlessTile` (empty marker block) the markers-included run fails while
the markers-excluded run succeeds, so toggling the flag does not leave the
rest of the outputs unchanged on every input. -/
theorem C9_marker_flag_counterexample :
    isOkE (drawMapSection bounds0 coords0 markerlessTile true) = false ∧
    isOkE (drawMapSection bounds0 coords0 markerlessTile false) = true := by
  constructor
  · exact drawMapSection_marker_error bounds0 coords0 markerlessTile
      (by rw [markerlessTile_drop]; rfl)
  · rw [markerlessTile_draw_false]
    rfl

/-- Claim C10. Two marker blocks of the same length that agree everywhere
except possibly at the reserved byte offsets of their records (offsets
`start+2`, `start+3`, `start+6`, `start+7` of each record) decode to
exactly the same marker list: the reserved bytes are skipped (the
`console.assert(index++, 0x00)` of the source tests the always-truthy
pre-increment index, not the byte), never validated, and never affect any
decoded field. -/
theorem C10_reserved_bytes (b1 b2 : List Nat) (floor : Nat)
    (hlen : b1.length = b2.length)
    (hag : ∀ j, j < b1.length → j ∉ reservedOffsets b1 →
      b1.getD j 0 = b2.getD j 0) :
    parseMarkerData b1 floor = parseMarkerData b2 floor :=
  parseMarkerData_agree b1 b2 floor hlen hag

/-- Claim C10, witness: `c10a` and `c10b` differ exactly at the reserved
offsets 6, 7, 10, 11 and decode to the same single marker. -/
theorem C10_reserved_bytes_witness :
    c10a.length = c10b.length ∧
    parseMarkerData c10a 7 = parseMarkerData c10b 7 ∧
    parseMarkerData c10b 7 = .ok [⟨5, 6, 7, 9, []⟩] := by
  refine ⟨by decide, C10_reserved_bytes c10a c10b 7 (by decide) ?_, rfl⟩
  decide
